import Mathlib

/-!
Verification of the horizon-pkg-build concurrent build pipeline against its
natural-language specification.

The development shallowly embeds the Go sources:
  * cmdtools/cmdtools.go  — the Reporter (DelegateError, DelegateErrorConsumer)
  * create (part_002)     — the part worker (imageExistsAtTarget,
                            exportImageToFile, compressImageFile,
                            writeDockerImage, exportDockerImage) and the
                            orchestrator (NewPkg)
  * main.go               — input validation (checkAccess)

External collaborators (the docker client, gzip, sha256, the rsapss signer,
the horizonpkg builder, and the filesystem) are modelled as oracle functions
carried in environment records; the embedded functions themselves follow the
Go control flow statement by statement.  Byte streams are lists of naturals,
fallible calls return Except.
-/

namespace HorizonPkgBuild

/-- Decidable equality for Except results, so concrete runs of the embedded
functions can be checked by evaluation. -/
instance {ε α : Type} [DecidableEq ε] [DecidableEq α] : DecidableEq (Except ε α) := fun
  | .ok a, .ok b =>
    if h : a = b then .isTrue (h ▸ rfl) else .isFalse (fun he => h (Except.ok.inj he))
  | .ok _, .error _ => .isFalse fun he => Except.noConfusion he
  | .error _, .ok _ => .isFalse fun he => Except.noConfusion he
  | .error e, .error f =>
    if h : e = f then .isTrue (h ▸ rfl) else .isFalse (fun he => h (Except.error.inj he))

/-! Go standard-library string primitives used by the sources, modelled over
the character list underlying a String. -/

/-- Model of Go strings.Split with a one-character separator: splits at every
occurrence of the separator; the empty string yields one empty field. -/
def splitOnChar (sep : Char) : List Char → List (List Char)
  | [] => [[]]
  | c :: cs =>
    let rest := splitOnChar sep cs
    if c = sep then
      [] :: rest
    else
      match rest with
      | [] => [[c]]
      | r :: rs => (c :: r) :: rs

/-- Go strings.Split(s, sep) for a one-character sep, on Strings. -/
def goSplit (sep : Char) (s : String) : List String :=
  (splitOnChar sep s.data).map (fun cs => ⟨cs⟩)

/-- Go strings.Replace(s, old, new, -1) for one-character old and new. -/
def goReplaceChar (old new : Char) (s : String) : String :=
  ⟨s.data.map (fun c => if c = old then new else c)⟩

/-- Go strings.TrimRight(s, cutset) for a one-character cutset. -/
def goTrimRight (cut : Char) (s : String) : String :=
  ⟨(s.data.reverse.dropWhile (fun c => c = cut)).reverse⟩

/-- Go filepath.Ext: the suffix of the name starting at its final dot,
empty when the name has no dot.  The names this program passes contain no
path separator, so the final-path-element restriction is vacuous. -/
def filepathExt (s : String) : String :=
  if s.data.contains '.' then
    ⟨'.' :: (s.data.reverse.takeWhile (fun c => c ≠ '.')).reverse⟩
  else
    ""

/-- Lowercase hex digit for a value below 16, as Go fmt %x prints. -/
def hexDigit (n : Nat) : Char :=
  if n < 10 then Char.ofNat (48 + n) else Char.ofNat (87 + n)

/-- Two lowercase hex digits of one byte, as Go fmt %x prints a byte. -/
def hexByte (b : Nat) : List Char :=
  [hexDigit (b / 16 % 16), hexDigit (b % 16)]

/-- Go fmt.Sprintf %x on a byte slice: each byte as two lowercase hex digits. -/
def hexOfBytes (bs : List Nat) : String :=
  ⟨(bs.map hexByte).flatten⟩

/-- Boolean infix test: does the needle occur contiguously in the haystack.
Used to state that an error message names the offending image. -/
def listInfix (needle hay : List Char) : Bool :=
  (List.range (hay.length + 1)).any (fun i => needle.isPrefixOf (hay.drop i))

/-! cmdtools/cmdtools.go -/

/-- cmdtools.DelegateError: a structured failure reported from a worker.
Field msg is the private message behind the Error() method. -/
structure DelegateError where
  userError : Bool
  breaking : Bool
  msg : String
deriving DecidableEq, Repr

/-- One run of the DelegateErrorConsumer goroutine over the sequence of
errors received on the reporter's error channel, starting from a given
counter value.  The loop body is: receive e, increment DelegateErrorCount,
then invoke the handler fn on e.  The result records the final counter and,
for each handler invocation in order, the counter value already visible when
that invocation starts (the increment precedes the call). -/
def delegateErrorConsumerRun (count : Nat) :
    List DelegateError → Nat × List (Nat × DelegateError)
  | [] => (count, [])
  | e :: rest =>
    let countAfterIncrement := count + 1
    let tail := delegateErrorConsumerRun countAfterIncrement rest
    (tail.1, (countAfterIncrement, e) :: tail.2)

/-! The docker client and the other external collaborators of the create
package (part_002), as an oracle environment. -/

/-- go-dockerclient AuthConfiguration, restricted to the fields this program
reads (the identifying username stands for the whole credential). -/
structure AuthConfiguration where
  username : String
  serverAddress : String
deriving DecidableEq, Repr

/-- The zero-value docker.AuthConfiguration used for unauthenticated pulls. -/
def zeroAuth : AuthConfiguration := ⟨"", ""⟩

/-- go-dockerclient APIImages, restricted to the RepoTags field the
existence check reads. -/
structure DockerImage where
  repoTags : List String
deriving DecidableEq, Repr

/-- A registry pull attempted by the worker: repository, tag, and the
credential handed to client.PullImage. -/
structure PullEvent where
  repo : String
  tag : String
  auth : AuthConfiguration
deriving DecidableEq, Repr

/-- Oracle environment for the part worker: the docker client calls, the
gzip codec, the sha256 digest, the rsapss signer and the pkg builder's
AddPart, each returning what the corresponding external call returns. -/
structure WorkerEnv where
  listImages : Except String (List DockerImage)
  pull : String → String → AuthConfiguration → Except String Unit
  exportImage : String → Except String (List Nat)
  compress : List Nat → Except String (List Nat)
  sha : List Nat → List Nat
  sign : List Nat → Except String String
  addPart : String → String → String → List String → Nat → String → Except String Unit

/-! create (part_002): the part worker. -/

/-- create.imageExistsAtTarget: lists images at the runtime and reports
whether any listed image carries a repo tag equal to the queried image. -/
def imageExistsAtTarget (client : WorkerEnv) (image : String) : Except String Bool :=
  match client.listImages with
  | .error err => .error err
  | .ok images => .ok (images.any (fun im => im.repoTags.any (fun t => t == image)))

/-- The credential chosen by the lookup loop in create.exportImageToFile:
starting from the zero-value AuthConfiguration, every entry whose
ServerAddress equals the wanted server address overwrites the choice, so the
last matching entry in iteration order wins. -/
def selectRepoAuth (configs : List AuthConfiguration) (serverAddress : String) :
    AuthConfiguration :=
  configs.foldl (fun acc ra => if ra.serverAddress = serverAddress then ra else acc)
    zeroAuth

/-- The pull phase of create.exportImageToFile: when the image is absent
locally, split the image reference at the colon into repository and tag
(rejecting anything but exactly two fields before attempting a pull), look
up a credential for the repository's server address when the repository
contains a slash and a credential set was supplied, and pull.  The second
component records every pull attempted against the registry. -/
def pullImageIfAbsent (client : WorkerEnv)
    (authConfigurations : Option (List AuthConfiguration)) (image : String) :
    Except String Unit × List PullEvent :=
  match imageExistsAtTarget client image with
  | .error err => (.error err, [])
  | .ok true => (.ok (), [])
  | .ok false =>
    let spl := goSplit ':' image
    if spl.length ≠ 2 then
      (.error ("Unable to parse given image name: " ++ image), [])
    else
      let repo := spl.getD 0 ""
      let tag := spl.getD 1 ""
      let repoAuth :=
        match authConfigurations with
        | none => zeroAuth
        | some configs =>
          let serverAddressSpl := goSplit '/' repo
          if serverAddressSpl.length > 1 then
            selectRepoAuth configs (serverAddressSpl.getD 0 "")
          else
            zeroAuth
      (client.pull repo tag repoAuth, [⟨repo, tag, repoAuth⟩])

/-- create.exportImageToFile: ensure the image is present (pulling it when
absent), then export it through the docker client into a temporary tar
file.  The success value carries the exported byte stream (the contents of
the temporary file) and the docker-safe tar file name; the second component
records the pulls attempted. -/
def exportImageToFile (client : WorkerEnv)
    (authConfigurations : Option (List AuthConfiguration)) (image : String) :
    Except String (List Nat × String) × List PullEvent :=
  let dockerSafeName := goReplaceChar '/' '_' image
  let dockerSafeTmpFileName := dockerSafeName ++ ".tar"
  match pullImageIfAbsent client authConfigurations image with
  | (.error err, evs) => (.error err, evs)
  | (.ok _, evs) =>
    match client.exportImage image with
    | .error err => (.error err, evs)
    | .ok contents => (.ok (contents, dockerSafeTmpFileName), evs)

/-- create.compressImageFile: gzip the exported tar contents into a
temporary file named after the tar name with its extension replaced by
.tgz.  Returns the compressed contents, the compressed file name, and the
number of uncompressed bytes copied through the gzip writer (the io.Copy
return value, which the caller discards). -/
def compressImageFile (client : WorkerEnv) (contents : List Nat)
    (dockerSafeTmpFileName : String) : Except String (List Nat × String × Nat) :=
  let dockerSafeTmpCompressedFileName : String :=
    ⟨dockerSafeTmpFileName.data.take
      (dockerSafeTmpFileName.data.length -
        (filepathExt dockerSafeTmpFileName).data.length)⟩ ++ ".tgz"
  match client.compress contents with
  | .error err => .error err
  | .ok compressed => .ok (compressed, dockerSafeTmpCompressedFileName, contents.length)

/-- Result of create.writeDockerImage: the byte stream fed to the sha256
hash writer, the content-addressed file name, the permanent path inside the
temporary directory and the byte count returned by copying the compressed
file through the hash writer. -/
structure WriteResult where
  hashInput : List Nat
  fileName : String
  permPath : String
  compressedBytes : Nat
deriving DecidableEq, Repr

/-- create.writeDockerImage: export, compress, then hash the compressed
file by copying it through a fresh sha256 writer (the source notes the hash
is calculated on the compressed content); the file name is the hex digest
plus the compressed file's extension and the file is renamed to that name
inside the temporary directory. -/
def writeDockerImage (client : WorkerEnv)
    (authConfigurations : Option (List AuthConfiguration))
    (tmpDir image : String) : Except String WriteResult × List PullEvent :=
  match exportImageToFile client authConfigurations image with
  | (.error err, evs) => (.error err, evs)
  | (.ok (contents, dockerSafeTmpFileName), evs) =>
    match compressImageFile client contents dockerSafeTmpFileName with
    | .error err => (.error err, evs)
    | .ok (compressed, dockerSafeTmpCompressedFileName, _unzippedBytes) =>
      let hashInput := compressed
      let hashHex := hexOfBytes (client.sha hashInput)
      let fileName := hashHex ++ filepathExt dockerSafeTmpCompressedFileName
      let permPath := tmpDir ++ "/" ++ fileName
      (.ok ⟨hashInput, fileName, permPath, compressed.length⟩, evs)

/-- A part as registered with the pkg builder by AddPart:
id, digest, description (the original image reference), signatures,
size in bytes, and source URL. -/
structure PartRecord where
  id : String
  digest : String
  description : String
  signatures : List String
  sizeBytes : Nat
  sourceURL : String
deriving DecidableEq, Repr

/-- Everything observable from one part worker run: the DelegateErr calls
it made, the parts it registered with the pkg builder, and the registry
pulls it attempted. -/
structure WorkerResult where
  errors : List DelegateError
  parts : List PartRecord
  pulls : List PullEvent
deriving DecidableEq, Repr

/-- create.exportDockerImage: the worker body.  Write the image (export,
compress, hash, rename), sign the hash writer's accumulated input, build
the part's source URL from the trimmed URL base, the pkg id and the file
name, and register the part under its sha256 hex digest; each failure
reports exactly one non-user, breaking DelegateError and stops. -/
def exportDockerImage (client : WorkerEnv)
    (authConfigurations : Option (List AuthConfiguration))
    (tmpDir image urlBase pkgID : String) : WorkerResult :=
  match writeDockerImage client authConfigurations tmpDir image with
  | (.error err, evs) =>
    { errors := [⟨false, true,
        "Error writing docker image " ++ image ++ ". Error: " ++ err ++ "\n"⟩]
      parts := []
      pulls := evs }
  | (.ok wr, evs) =>
    match client.sign wr.hashInput with
    | .error err =>
      { errors := [⟨false, true,
          "Error hashing docker image " ++ image ++ ". Error: " ++ err ++ "\n"⟩]
        parts := []
        pulls := evs }
    | .ok signature =>
      let signatures := [signature]
      let source := goTrimRight '/' urlBase ++ "/" ++ pkgID ++ "/" ++ wr.fileName
      let sha256sum := hexOfBytes (client.sha wr.hashInput)
      match client.addPart sha256sum sha256sum image signatures wr.compressedBytes source with
      | .error err =>
        { errors := [⟨false, true,
            "Error adding Pkg part " ++ sha256sum ++ ". Error: " ++ err ++ "\n"⟩]
          parts := []
          pulls := evs }
      | .ok _ =>
        { errors := []
          parts := [⟨sha256sum, sha256sum, image, signatures, wr.compressedBytes, source⟩]
          pulls := evs }

/-! create (part_002): the build orchestrator NewPkg. -/

/-- Oracle environment for the orchestrator's own external calls: reading
the private key, constructing the pkg builder (which yields the package
id), creating the temporary build directory, building the serialized
manifest, writing a file at a path, signing the serialized manifest, and
the chmod and rename filesystem calls. -/
structure OrchEnv where
  readPrivateKey : Except String Unit
  newBuilder : Except String String
  tempDir : Except String String
  build : Except String (List Nat)
  writeFile : String → Except String Unit
  signInput : List Nat → Except String String
  chmod : String → Except String Unit
  renameDir : String → String → Except String Unit

/-- Observable orchestrator effects, in program order: the manifest
builder's build step ran, a file write at a path succeeded, the temporary
directory's permissions were changed, the temporary directory was renamed
to the permanent package directory. -/
inductive OrchEvent where
  | buildInvoked : OrchEvent
  | fileWritten : String → OrchEvent
  | chmodDone : String → OrchEvent
  | renamedDir : String → String → OrchEvent
deriving DecidableEq, Repr

/-- Everything observable from one NewPkg run: the returned triple
(permanent dir, manifest file, signature file), the DelegateErr calls made
by the orchestrator itself, the per-image worker results, and the effect
trace. -/
structure NewPkgRun where
  result : String × String × String
  selfErrors : List DelegateError
  workerResults : List WorkerResult
  events : List OrchEvent

/-- create.NewPkg: read the key, construct the builder and the temporary
directory, run one worker per image, and once all workers are done abort
when the reporter's DelegateErrorCount is positive; otherwise build and
write the manifest, sign it and write the signature (the source assigns
this write's error but never checks it), then chmod the temporary directory
and rename it to the permanent package directory.  Workers run concurrently
in the source and are independent; the model runs them in image order and
sums their reported errors, which is the count the reporter's consumer has
accumulated once the join completes. -/
def NewPkg (client : WorkerEnv) (orch : OrchEnv)
    (authConfigurations : Option (List AuthConfiguration))
    (baseOutputDir urlBase : String) (images : List String) : NewPkgRun :=
  match orch.readPrivateKey with
  | .error err =>
    ⟨("", "", ""),
     [⟨true, true, "Error reading RSA PSS private key. Error: " ++ err ++ "\n"⟩], [], []⟩
  | .ok _ =>
  match orch.newBuilder with
  | .error err =>
    ⟨("", "", ""),
     [⟨false, true, "Error setting up Pkg builder. Error: " ++ err ++ "\n"⟩], [], []⟩
  | .ok pkgID =>
  match orch.tempDir with
  | .error err =>
    ⟨("", "", ""),
     [⟨false, true, "Error setting up Pkg builder. Error: " ++ err ++ "\n"⟩], [], []⟩
  | .ok tmpDir =>
    let workerResults := images.map (fun image =>
      exportDockerImage client authConfigurations tmpDir image urlBase pkgID)
    let delegateErrorCount := (workerResults.map (fun r => r.errors.length)).sum
    if 0 < delegateErrorCount then
      ⟨("", "", ""), [], workerResults, []⟩
    else
      match orch.build with
      | .error err =>
        ⟨("", "", ""),
         [⟨false, true, "Error building package. Error: " ++ err ++ "\n"⟩],
         workerResults, [.buildInvoked]⟩
      | .ok serialized =>
        let pkgFile := baseOutputDir ++ "/" ++ pkgID ++ ".json"
        match orch.writeFile pkgFile with
        | .error err =>
          ⟨("", "", ""),
           [⟨false, true, "Error writing Pkg metadata to disk. Error: " ++ err ++ "\n"⟩],
           workerResults, [.buildInvoked]⟩
        | .ok _ =>
          match orch.signInput serialized with
          | .error err =>
            ⟨("", "", ""),
             [⟨false, true, "Error signing Pkg metadata. Error: " ++ err ++ "\n"⟩],
             workerResults, [.buildInvoked, .fileWritten pkgFile]⟩
          | .ok _pkgSig =>
            let pkgSigFile := pkgFile ++ ".sig"
            let sigWrite := orch.writeFile pkgSigFile
            let eventsBeforeCommit :=
              [OrchEvent.buildInvoked, OrchEvent.fileWritten pkgFile] ++
                (match sigWrite with
                 | .ok _ => [OrchEvent.fileWritten pkgSigFile]
                 | .error _ => [])
            match orch.chmod tmpDir with
            | .error err =>
              ⟨("", "", ""),
               [⟨false, true, "Error changing perms on tmpdir. Error: " ++ err ++ "\n"⟩],
               workerResults, eventsBeforeCommit⟩
            | .ok _ =>
              let permDir := baseOutputDir ++ "/" ++ pkgID
              match orch.renameDir tmpDir permDir with
              | .error err =>
                ⟨("", "", ""),
                 [⟨false, true,
                   "Error moving Pkg content to permanent dir from tmpdir. Error: " ++ err ++ "\n"⟩],
                 workerResults, eventsBeforeCommit ++ [.chmodDone tmpDir]⟩
              | .ok _ =>
                ⟨(permDir, pkgFile, pkgSigFile), [], workerResults,
                 eventsBeforeCommit ++ [.chmodDone tmpDir, .renamedDir tmpDir permDir]⟩

/-! main.go: input validation. -/

/-- main.CheckType: the quasi-enum for filesystem object checking. -/
inductive CheckType where
  | WRITEDIR : CheckType
  | EXISTINGFILE : CheckType
deriving DecidableEq, Repr

/-- The mode word of an os.FileInfo, restricted to what a validation
decision could inspect: the directory and regular-file type bits and the
effective write and read permissions for the invoking user.  checkAccess
reads only the two type bits. -/
structure FileMode where
  isDir : Bool
  isRegular : Bool
  writable : Bool
  readable : Bool
deriving DecidableEq, Repr

/-- main.checkAccess: stat the target (the argument carries the stat
result), fail when the stat fails, then check only mode.IsDir() for
WRITEDIR and only mode.IsRegular() for EXISTINGFILE. -/
def checkAccess (stat : Except String FileMode) (ty : CheckType) (target : String) :
    Except String Unit :=
  match stat with
  | .error _ => .error ("Unable to stat " ++ target)
  | .ok mode =>
    match ty with
    | .WRITEDIR =>
      if !mode.isDir then
        .error ("Directory path (" ++ target ++ ") is unusable")
      else
        .ok ()
    | .EXISTINGFILE =>
      if !mode.isRegular then
        .error ("File (" ++ target ++ ") is unusable")
      else
        .ok ()

/-! Concrete oracle environments used in witness and counterexample runs. -/

/-- Concrete client whose runtime lists two images. -/
def clientListTwo : WorkerEnv :=
  { listImages := .ok [⟨["alpine:3.6", "b:2"]⟩]
    pull := fun _ _ _ => .ok ()
    exportImage := fun _ => .ok []
    compress := fun bs => .ok bs
    sha := fun bs => bs
    sign := fun _ => .ok ""
    addPart := fun _ _ _ _ _ _ => .ok () }

/-- Concrete client whose runtime listing fails. -/
def clientListDown : WorkerEnv :=
  { clientListTwo with listImages := .error "cannot connect" }

/-- Concrete client: the image is listed locally, exports as bytes
[1, 2, 3], the codec prepends the two gzip magic bytes, and the digest
oracle is the identity on the hashed stream; signing and registration
succeed. -/
def wenvGzip : WorkerEnv :=
  { listImages := .ok [⟨["img:1"]⟩]
    pull := fun _ _ _ => .ok ()
    exportImage := fun _ => .ok [1, 2, 3]
    compress := fun bs => .ok (31 :: 139 :: bs)
    sha := fun bs => bs
    sign := fun _ => .ok "sig"
    addPart := fun _ _ _ _ _ _ => .ok () }

/-- The same client with the identity codec: the stored artifact equals the
exported stream byte for byte. -/
def wenvIdentityCodec : WorkerEnv :=
  { wenvGzip with compress := fun bs => .ok bs }

/-- The same client with an empty local image list, so the worker must
parse the reference and pull. -/
def wenvAbsent : WorkerEnv :=
  { wenvGzip with listImages := .ok [] }

/-- Concrete client for which registration fails: the image a/b:1.0 is
present locally but the pkg builder rejects AddPart. -/
def wenvAddPartFails : WorkerEnv :=
  { wenvGzip with
    listImages := .ok [⟨["a/b:1.0"]⟩]
    addPart := fun _ _ _ _ _ _ => .error "boom" }

/-- Concrete orchestrator whose external calls all succeed: the package id
is PKG, the temporary directory tmpbuild, the serialized manifest the
single byte 7. -/
def orchAllOk : OrchEnv :=
  { readPrivateKey := .ok ()
    newBuilder := .ok "PKG"
    tempDir := .ok "tmpbuild"
    build := .ok [7]
    writeFile := fun _ => .ok ()
    signInput := fun _ => .ok "pkgsig"
    chmod := fun _ => .ok ()
    renameDir := fun _ _ => .ok () }

/-- The same orchestrator except that writing the detached signature file
out/PKG.json.sig fails. -/
def orchSigWriteFails : OrchEnv :=
  { orchAllOk with
    writeFile := fun p => if p = "out/PKG.json.sig" then .error "disk full" else .ok () }

end HorizonPkgBuild

namespace HorizonPkgBuild

/-- List-level fact behind the message checks: a byte sequence framed by a
prefix and a suffix occurs as an infix of the framed message. -/
theorem listInfix_sandwich (a b c : List Char) : listInfix b (a ++ b ++ c) = true := by
  unfold listInfix
  rw [List.any_eq_true]
  refine ⟨a.length, List.mem_range.mpr ?_, ?_⟩
  · simp only [List.length_append]
    omega
  · rw [List.append_assoc, List.drop_left]
    exact List.isPrefixOf_iff_prefix.mpr (List.prefix_append b c)

/-- The character data of a String concatenation is the concatenation of
the character data. -/
theorem string_data_append (s t : String) : (s ++ t).data = s.data ++ t.data := by
  cases s
  cases t
  rfl

/-- A needle known to be a list infix is found by the executable check. -/
theorem listInfix_eq_true_of_infix {n h : List Char} (hinf : n <:+: h) :
    listInfix n h = true := by
  obtain ⟨s, t, rfl⟩ := hinf
  exact listInfix_sandwich s n t

/-- Claim C7: in the DelegateErrorConsumer loop the counter is incremented
before the handler is invoked for each received error, so the counter value
visible at the k-th handler invocation is count+k, and after N received
errors have been handled the counter reads the initial count plus N (hence
at least N).  Closed form: the run equals (count + N, [(count+1, e1),
(count+2, e2), ...]). -/
theorem delegateErrorConsumerRun_counts (count : Nat) (es : List DelegateError) :
    delegateErrorConsumerRun count es =
      (count + es.length, (List.range' (count + 1) es.length).zip es) := by
  induction es generalizing count with
  | nil => simp [delegateErrorConsumerRun]
  | cons e rest ih =>
    simp only [delegateErrorConsumerRun, ih, List.length_cons, List.range']
    refine Prod.ext ?_ ?_
    · simp; omega
    · simp [List.zip]

/-- Claim C10: the local image existence check succeeds with true exactly
when some listed image has a repo tag string equal to the queried image
(exact equality), and propagates the runtime's listing error. -/
theorem imageExistsAtTarget_exact_match (client : WorkerEnv) (image : String) :
    (∀ e, client.listImages = .error e → imageExistsAtTarget client image = .error e) ∧
    (∀ imgs, client.listImages = .ok imgs →
      (imageExistsAtTarget client image = .ok true ↔ ∃ im ∈ imgs, image ∈ im.repoTags)) := by
  constructor
  · intro e he
    simp [imageExistsAtTarget, he]
  · intro imgs h
    simp only [imageExistsAtTarget, h]
    constructor
    · intro hok
      have h2 : (imgs.any fun im => im.repoTags.any fun t => t == image) = true := by
        injection hok
      simpa [List.any_eq_true] using h2
    · intro hex
      have h2 : (imgs.any fun im => im.repoTags.any fun t => t == image) = true := by
        simpa [List.any_eq_true] using hex
      simp [h2]

/-- Witness for claim C10 at concrete clients: an exactly-matching tag is
found, and a listing failure is propagated verbatim. -/
theorem imageExistsAtTarget_exact_match_witness :
    imageExistsAtTarget clientListTwo "b:2" = .ok true ∧
    imageExistsAtTarget clientListDown "b:2" = .error "cannot connect" :=
  ⟨((imageExistsAtTarget_exact_match clientListTwo "b:2").2
      [⟨["alpine:3.6", "b:2"]⟩] rfl).mpr (by decide),
   (imageExistsAtTarget_exact_match clientListDown "b:2").1 "cannot connect" rfl⟩

/-- Claim C1 (refuting run): writeDockerImage feeds the compressed artifact
to the digest, not the canonical uncompressed export.  Under two clients
that export byte-identical image content [1, 2, 3] and differ only in the
compression codec, the stream fed to the hash writer is the compressed one
(differing from the exported stream), and the two runs yield different
digests and content-addressed filenames — the digest is not independent of
the codec. -/
theorem writeDockerImage_digest_depends_on_codec :
    (writeDockerImage wenvGzip none "tmp" "img:1").1 =
      .ok ⟨[31, 139, 1, 2, 3], "1f8b010203.tgz", "tmp/1f8b010203.tgz", 5⟩ ∧
    (writeDockerImage wenvIdentityCodec none "tmp" "img:1").1 =
      .ok ⟨[1, 2, 3], "010203.tgz", "tmp/010203.tgz", 3⟩ ∧
    wenvGzip.exportImage "img:1" = .ok [1, 2, 3] ∧
    wenvIdentityCodec.exportImage "img:1" = .ok [1, 2, 3] ∧
    ([31, 139, 1, 2, 3] : List Nat) ≠ [1, 2, 3] ∧
    ("1f8b010203.tgz" : String) ≠ "010203.tgz" := by
  decide

/-- Claim C4 (refuting run): an image reference lacking a colon that is
absent locally is indeed rejected before any pull is attempted (the pull
trace is empty), no part is registered, and the single reported error names
the image — but it is reported with userError = false, a runtime/system
classification, not the user-error classification the claim requires. -/
theorem exportDockerImage_missing_tag_not_user_error :
    (exportDockerImage wenvAbsent none "tmp" "noTagImage" "u" "P").pulls = [] ∧
    (exportDockerImage wenvAbsent none "tmp" "noTagImage" "u" "P").parts = [] ∧
    (exportDockerImage wenvAbsent none "tmp" "noTagImage" "u" "P").errors.map
        (fun e => (e.userError, e.breaking)) = [(false, true)] ∧
    (exportDockerImage wenvAbsent none "tmp" "noTagImage" "u" "P").errors.map
        (fun e => listInfix "noTagImage".data e.msg.data) = [true] := by
  decide

/-- Claim C5 (counterexample): when registration of the part fails, the
worker's single reported error is breaking but its message does not name
the offending image a/b:1.0 anywhere — it names the part digest instead. -/
theorem exportDockerImage_addPart_message_omits_image :
    (exportDockerImage wenvAddPartFails none "tmp" "a/b:1.0" "u" "P").errors.map
        (fun e => (e.breaking, listInfix "a/b:1.0".data e.msg.data)) = [(true, false)] ∧
    (exportDockerImage wenvAddPartFails none "tmp" "a/b:1.0" "u" "P").errors.map
        (fun e => e.msg) = ["Error adding Pkg part 1f8b010203. Error: boom\n"] := by
  decide

/-- Claim C5 (amended): every worker failure reports exactly one breaking
DelegateError and registers no part, and the success path registers exactly
one part and reports no error; the failure message names the offending
image except when registration itself fails, in which case the message
names the part digest instead (it starts with the words Error adding Pkg
part). -/
theorem exportDockerImage_reports_once (client : WorkerEnv)
    (authConfigurations : Option (List AuthConfiguration))
    (tmpDir image urlBase pkgID : String) :
    ((exportDockerImage client authConfigurations tmpDir image urlBase pkgID).errors = [] →
      (exportDockerImage client authConfigurations tmpDir image urlBase pkgID).parts.length = 1) ∧
    ((exportDockerImage client authConfigurations tmpDir image urlBase pkgID).errors ≠ [] →
      (exportDockerImage client authConfigurations tmpDir image urlBase pkgID).errors.length = 1 ∧
      (exportDockerImage client authConfigurations tmpDir image urlBase pkgID).parts = []) ∧
    (∀ e ∈ (exportDockerImage client authConfigurations tmpDir image urlBase pkgID).errors,
      e.breaking = true ∧
      (listInfix image.data e.msg.data = true ∨
        ("Error adding Pkg part ").data.isPrefixOf e.msg.data = true)) := by
  unfold exportDockerImage
  split
  · rename_i err evs heq
    refine ⟨by simp, fun _ => by simp, ?_⟩
    intro e he
    simp only [List.mem_singleton] at he
    subst he
    refine ⟨rfl, Or.inl ?_⟩
    apply listInfix_eq_true_of_infix
    refine ⟨("Error writing docker image ").data, (". Error: " ++ err ++ "\n").data, ?_⟩
    simp [string_data_append, List.append_assoc]
  · rename_i wr evs heq
    split
    · rename_i err heq2
      refine ⟨by simp, fun _ => by simp, ?_⟩
      intro e he
      simp only [List.mem_singleton] at he
      subst he
      refine ⟨rfl, Or.inl ?_⟩
      apply listInfix_eq_true_of_infix
      refine ⟨("Error hashing docker image ").data, (". Error: " ++ err ++ "\n").data, ?_⟩
      simp [string_data_append, List.append_assoc]
    · rename_i signature heq2
      dsimp only
      split
      · rename_i err heq3
        refine ⟨by simp, fun _ => by simp, ?_⟩
        intro e he
        simp only [List.mem_singleton] at he
        subst he
        refine ⟨rfl, Or.inr ?_⟩
        rw [List.isPrefixOf_iff_prefix]
        refine ⟨(hexOfBytes (client.sha wr.hashInput) ++ ". Error: " ++ err ++ "\n").data, ?_⟩
        simp [string_data_append, List.append_assoc]
      · exact ⟨fun _ => by simp, fun h => absurd (by simp) h, by simp⟩

/-- Witness for the amended claim C5 at the concrete failing-registration
run: the reported-error count is one with no part registered, and the
concrete reported error is breaking with a message that names the part
digest. -/
theorem exportDockerImage_reports_once_witness :
    ((exportDockerImage wenvAddPartFails none "tmp" "a/b:1.0" "u" "P").errors.length = 1 ∧
      (exportDockerImage wenvAddPartFails none "tmp" "a/b:1.0" "u" "P").parts = []) ∧
    ((DelegateError.mk false true "Error adding Pkg part 1f8b010203. Error: boom\n").breaking = true ∧
      (listInfix "a/b:1.0".data
          (DelegateError.mk false true
            "Error adding Pkg part 1f8b010203. Error: boom\n").msg.data = true ∨
        ("Error adding Pkg part ").data.isPrefixOf
          (DelegateError.mk false true
            "Error adding Pkg part 1f8b010203. Error: boom\n").msg.data = true)) :=
  ⟨(exportDockerImage_reports_once wenvAddPartFails none "tmp" "a/b:1.0" "u" "P").2.1
      (by decide),
   (exportDockerImage_reports_once wenvAddPartFails none "tmp" "a/b:1.0" "u" "P").2.2
      _ (by decide)⟩

/-- Shape of a successful exportImageToFile run: the exported contents are
exactly what the docker client's export call returned for the image. -/
theorem exportImageToFile_ok {client : WorkerEnv}
    {authConfigurations : Option (List AuthConfiguration)} {image : String}
    {contents : List Nat} {name : String} {evs : List PullEvent}
    (h : exportImageToFile client authConfigurations image = (.ok (contents, name), evs)) :
    client.exportImage image = .ok contents := by
  unfold exportImageToFile at h
  split at h
  · simp at h
  · rename_i u evs' heq
    split at h
    · simp at h
    · rename_i c heq2
      simp only [Prod.mk.injEq, Except.ok.injEq] at h
      obtain ⟨⟨hc, -⟩, -⟩ := h
      rw [heq2, hc]

/-- Shape of a successful writeDockerImage run: the stream fed to the hash
writer is the codec's output on the exported contents, and the recorded
compressed byte count is that stream's length. -/
theorem writeDockerImage_ok {client : WorkerEnv}
    {authConfigurations : Option (List AuthConfiguration)} {tmpDir image : String}
    {wr : WriteResult} {evs : List PullEvent}
    (h : writeDockerImage client authConfigurations tmpDir image = (.ok wr, evs)) :
    ∃ contents, client.exportImage image = .ok contents ∧
      client.compress contents = .ok wr.hashInput ∧
      wr.compressedBytes = wr.hashInput.length := by
  unfold writeDockerImage at h
  split at h
  · simp at h
  · rename_i contents name evs' heq
    have hexp := exportImageToFile_ok heq
    split at h
    · simp at h
    · rename_i compressed compName unzipped heq2
      refine ⟨contents, hexp, ?_⟩
      unfold compressImageFile at heq2
      split at heq2
      · simp at heq2
      · rename_i compressedRaw heq3
        simp only [Except.ok.injEq, Prod.mk.injEq] at heq2
        obtain ⟨hcr, -, -⟩ := heq2
        simp only [Prod.mk.injEq, Except.ok.injEq] at h
        obtain ⟨hwr, -⟩ := h
        subst hwr
        subst hcr
        exact ⟨heq3, rfl⟩

/-- Claim C6: the size registered with the accumulator for a successfully
processed image is the byte length of the compressed artifact as persisted
(the length of the codec's output), not the uncompressed export length. -/
theorem exportDockerImage_registers_compressed_size (client : WorkerEnv)
    (authConfigurations : Option (List AuthConfiguration))
    (tmpDir image urlBase pkgID : String) (exported compressed : List Nat)
    (hexp : client.exportImage image = .ok exported)
    (hcomp : client.compress exported = .ok compressed) :
    ∀ p ∈ (exportDockerImage client authConfigurations tmpDir image urlBase pkgID).parts,
      p.sizeBytes = compressed.length := by
  intro p hp
  unfold exportDockerImage at hp
  split at hp
  · simp at hp
  · rename_i wr evs heq
    split at hp
    · simp at hp
    · rename_i signature heq2
      dsimp only at hp
      split at hp
      · simp at hp
      · simp only [List.mem_singleton] at hp
        subst hp
        obtain ⟨contents, hexp2, hcomp2, hlen⟩ := writeDockerImage_ok heq
        rw [hexp] at hexp2
        injection hexp2 with hce
        subst hce
        rw [hcomp] at hcomp2
        injection hcomp2 with hcc
        simp only
        rw [hlen, ← hcc]

/-- Witness for claim C6 at the concrete gzip-prefix run: the registered
part's size is the compressed length 5, not the uncompressed length 3. -/
theorem exportDockerImage_registers_compressed_size_witness :
    (⟨"1f8b010203", "1f8b010203", "img:1", ["sig"], 5, "u/P/1f8b010203.tgz"⟩ : PartRecord) ∈
      (exportDockerImage wenvGzip none "tmp" "img:1" "u" "P").parts ∧
    PartRecord.sizeBytes
        ⟨"1f8b010203", "1f8b010203", "img:1", ["sig"], 5, "u/P/1f8b010203.tgz"⟩ =
      ([31, 139, 1, 2, 3] : List Nat).length ∧
    ([31, 139, 1, 2, 3] : List Nat).length ≠ ([1, 2, 3] : List Nat).length :=
  ⟨by decide,
   exportDockerImage_registers_compressed_size wenvGzip none "tmp" "img:1" "u" "P"
     [1, 2, 3] [31, 139, 1, 2, 3] rfl rfl _ (by decide),
   by decide⟩

/-- The credential-selection fold returns its initial value when no entry
matches the server address. -/
theorem selectFold_no_match (sa : String) (configs : List AuthConfiguration)
    (init : AuthConfiguration)
    (h : ∀ cfg ∈ configs, cfg.serverAddress ≠ sa) :
    configs.foldl (fun acc ra => if ra.serverAddress = sa then ra else acc) init = init := by
  induction configs generalizing init with
  | nil => rfl
  | cons c cs ih =>
    have hc : ¬ c.serverAddress = sa := h c (List.mem_cons_self c cs)
    simp only [List.foldl_cons, if_neg hc]
    exact ih init (fun cfg hm => h cfg (List.mem_cons_of_mem c hm))

/-- When some entry matches the server address, the fold returns a matching
entry of the list (the last match in iteration order). -/
theorem selectFold_match (sa : String) (configs : List AuthConfiguration)
    (init : AuthConfiguration)
    (h : ∃ cfg ∈ configs, cfg.serverAddress = sa) :
    (configs.foldl (fun acc ra => if ra.serverAddress = sa then ra else acc) init) ∈ configs ∧
    (configs.foldl (fun acc ra => if ra.serverAddress = sa then ra else acc)
        init).serverAddress = sa := by
  induction configs generalizing init with
  | nil => simp at h
  | cons c cs ih =>
    by_cases hex : ∃ cfg ∈ cs, cfg.serverAddress = sa
    · obtain ⟨hmem, hsa⟩ := ih (if c.serverAddress = sa then c else init) hex
      exact ⟨List.mem_cons_of_mem c hmem, hsa⟩
    · have hc : c.serverAddress = sa := by
        rcases h with ⟨cfg, hm, hsa⟩
        rcases List.mem_cons.mp hm with rfl | hmem
        · exact hsa
        · exact absurd ⟨cfg, hmem, hsa⟩ hex
      have hnone : ∀ cfg ∈ cs, cfg.serverAddress ≠ sa := by
        intro cfg hm hEq
        exact hex ⟨cfg, hm, hEq⟩
      simp only [List.foldl_cons, if_pos hc]
      rw [selectFold_no_match sa cs c hnone]
      exact ⟨List.mem_cons_self c cs, hc⟩

/-- Claim C8: when a worker pulls an absent image under a supplied
credential set and the repository names a registry server (it contains a
slash), the pull is attempted exactly once with the credential selected for
the segment of the repository before the first slash: an entry of the
credential set whose server address equals that segment when one exists
(the last matching entry in iteration order), and the zero-value
AuthConfiguration — an unauthenticated attempt — when none matches. -/
theorem pullImageIfAbsent_credential_lookup (client : WorkerEnv)
    (configs : List AuthConfiguration) (image repo tag sa : String) (rest : List String)
    (habsent : imageExistsAtTarget client image = .ok false)
    (hsplit : goSplit ':' image = [repo, tag])
    (hrepo : goSplit '/' repo = sa :: rest)
    (hslash : rest ≠ []) :
    (pullImageIfAbsent client (some configs) image).2 =
      [⟨repo, tag, selectRepoAuth configs sa⟩] ∧
    ((∃ cfg ∈ configs, cfg.serverAddress = sa) →
      selectRepoAuth configs sa ∈ configs ∧
      (selectRepoAuth configs sa).serverAddress = sa) ∧
    ((∀ cfg ∈ configs, cfg.serverAddress ≠ sa) →
      selectRepoAuth configs sa = zeroAuth) := by
  obtain ⟨r, rest', rfl⟩ := List.exists_cons_of_ne_nil hslash
  refine ⟨?_, fun h => selectFold_match sa configs zeroAuth h,
    fun h => selectFold_no_match sa configs zeroAuth h⟩
  unfold pullImageIfAbsent
  rw [habsent]
  simp [hsplit, hrepo]

/-- Witness for claim C8: with credentials for other.io and xy.io and the
absent image xy.io/app:1.0, the single pull attempt carries the xy.io
credential, which is the matching entry of the set. -/
theorem pullImageIfAbsent_credential_lookup_witness :
    (pullImageIfAbsent wenvAbsent
        (some [⟨"u1", "other.io"⟩, ⟨"timmy", "xy.io"⟩]) "xy.io/app:1.0").2 =
      [⟨"xy.io/app", "1.0",
        selectRepoAuth [⟨"u1", "other.io"⟩, ⟨"timmy", "xy.io"⟩] "xy.io"⟩] ∧
    selectRepoAuth [⟨"u1", "other.io"⟩, ⟨"timmy", "xy.io"⟩] "xy.io" ∈
      [(⟨"u1", "other.io"⟩ : AuthConfiguration), ⟨"timmy", "xy.io"⟩] ∧
    (selectRepoAuth [⟨"u1", "other.io"⟩, ⟨"timmy", "xy.io"⟩] "xy.io").serverAddress =
      "xy.io" := by
  have h := pullImageIfAbsent_credential_lookup wenvAbsent
    [⟨"u1", "other.io"⟩, ⟨"timmy", "xy.io"⟩] "xy.io/app:1.0" "xy.io/app" "1.0" "xy.io"
    ["app"] (by decide) (by decide) (by decide) (by decide)
  exact ⟨h.1, (h.2.1 ⟨⟨"timmy", "xy.io"⟩, by decide, rfl⟩).1,
    (h.2.1 ⟨⟨"timmy", "xy.io"⟩, by decide, rfl⟩).2⟩

/-- Claim C2: when the aggregated worker error count observed after the
join is positive, NewPkg aborts: it returns the empty artifact triple, its
effect trace is empty — the manifest builder's build step is never invoked,
no manifest or signature file write succeeds, and no rename to the
permanent package directory takes place. -/
theorem NewPkg_aborts_on_worker_errors (client : WorkerEnv) (orch : OrchEnv)
    (authConfigurations : Option (List AuthConfiguration))
    (baseOutputDir urlBase pkgID tmpDir : String) (images : List String)
    (hkey : orch.readPrivateKey = .ok ())
    (hbuilder : orch.newBuilder = .ok pkgID)
    (htmp : orch.tempDir = .ok tmpDir)
    (herr : 0 < (((images.map (fun image =>
        exportDockerImage client authConfigurations tmpDir image urlBase pkgID)).map
          (fun r => r.errors.length)).sum)) :
    (NewPkg client orch authConfigurations baseOutputDir urlBase images).result =
      ("", "", "") ∧
    (NewPkg client orch authConfigurations baseOutputDir urlBase images).events = [] ∧
    OrchEvent.buildInvoked ∉
      (NewPkg client orch authConfigurations baseOutputDir urlBase images).events ∧
    (∀ p, OrchEvent.fileWritten p ∉
      (NewPkg client orch authConfigurations baseOutputDir urlBase images).events) ∧
    (∀ s d, OrchEvent.renamedDir s d ∉
      (NewPkg client orch authConfigurations baseOutputDir urlBase images).events) := by
  have hrun : NewPkg client orch authConfigurations baseOutputDir urlBase images =
      ⟨("", "", ""), [],
        images.map (fun image =>
          exportDockerImage client authConfigurations tmpDir image urlBase pkgID), []⟩ := by
    unfold NewPkg
    rw [hkey, hbuilder, htmp]
    dsimp only
    rw [if_pos herr]
  rw [hrun]
  exact ⟨rfl, rfl, by simp, by simp, by simp⟩

/-- Witness for claim C2: with a client whose runtime listing fails, the
single worker reports one error, and the run returns no artifacts and
produces no build, write, or rename effect. -/
theorem NewPkg_aborts_on_worker_errors_witness :
    (NewPkg clientListDown orchAllOk none "out" "u" ["img:1"]).result = ("", "", "") ∧
    (NewPkg clientListDown orchAllOk none "out" "u" ["img:1"]).events = [] ∧
    OrchEvent.buildInvoked ∉ (NewPkg clientListDown orchAllOk none "out" "u" ["img:1"]).events ∧
    OrchEvent.fileWritten "out/PKG.json" ∉
      (NewPkg clientListDown orchAllOk none "out" "u" ["img:1"]).events ∧
    OrchEvent.renamedDir "tmpbuild" "out/PKG" ∉
      (NewPkg clientListDown orchAllOk none "out" "u" ["img:1"]).events := by
  have h := NewPkg_aborts_on_worker_errors clientListDown orchAllOk none "out" "u"
    "PKG" "tmpbuild" ["img:1"] rfl rfl rfl (by decide)
  exact ⟨h.1, h.2.1, h.2.2.1, h.2.2.2.1 "out/PKG.json", h.2.2.2.2 "tmpbuild" "out/PKG"⟩

/-- Claim C3 (refuting run): a failed write of the detached signature file
does not abort the commit.  With one successfully processed image and every
orchestrator step succeeding except the write of out/PKG.json.sig, NewPkg
still changes the temporary directory's permissions, renames it to the
permanent package directory, and returns the full artifact triple, although
the signature file was never successfully written. -/
theorem NewPkg_renames_despite_sig_write_failure :
    (NewPkg clientListTwo orchSigWriteFails none "out" "u" ["b:2"]).result =
      ("out/PKG", "out/PKG.json", "out/PKG.json.sig") ∧
    (NewPkg clientListTwo orchSigWriteFails none "out" "u" ["b:2"]).events =
      [.buildInvoked, .fileWritten "out/PKG.json", .chmodDone "tmpbuild",
        .renamedDir "tmpbuild" "out/PKG"] ∧
    OrchEvent.fileWritten "out/PKG.json.sig" ∉
      (NewPkg clientListTwo orchSigWriteFails none "out" "u" ["b:2"]).events ∧
    orchSigWriteFails.writeFile "out/PKG.json.sig" = .error "disk full" := by
  decide

/-- Claim C9 (counterexample): checkAccess accepts an existing directory
that is not writable, and an existing regular file that is not readable:
only the type bits of the stat mode are inspected, so validation does not
fail on a non-writable output directory or an unreadable key file. -/
theorem checkAccess_ignores_permissions :
    checkAccess (.ok ⟨true, false, false, false⟩) CheckType.WRITEDIR "out" = .ok () ∧
    FileMode.writable ⟨true, false, false, false⟩ = false ∧
    checkAccess (.ok ⟨false, true, false, false⟩) CheckType.EXISTINGFILE "key.pem" = .ok () ∧
    FileMode.readable ⟨false, true, false, false⟩ = false := by
  decide

/-- Claim C9 (amended): checkAccess accepts the output directory exactly
when the stat succeeds and reports a directory, and the private key path
exactly when the stat succeeds and reports a regular file; the write and
read permission bits are never examined. -/
theorem checkAccess_type_bits_only (stat : Except String FileMode) (target : String) :
    (checkAccess stat CheckType.WRITEDIR target = .ok () ↔
      (match stat with | .ok m => m.isDir | .error _ => false) = true) ∧
    (checkAccess stat CheckType.EXISTINGFILE target = .ok () ↔
      (match stat with | .ok m => m.isRegular | .error _ => false) = true) := by
  cases stat with
  | error e => simp [checkAccess]
  | ok m =>
    cases hm : m.isDir <;> cases hr : m.isRegular <;> simp [checkAccess, hm, hr]

/-- Witness for the amended claim C9: a stat reporting a non-writable
directory is accepted for the output-directory check. -/
theorem checkAccess_type_bits_only_witness :
    checkAccess (.ok ⟨true, false, false, false⟩) CheckType.WRITEDIR "outdir" = .ok () :=
  (checkAccess_type_bits_only (.ok ⟨true, false, false, false⟩) "outdir").1.mpr (by decide)

/-- Witness for claim C7 at a concrete error sequence: the counter values
visible at the two handler invocations are 1 and 2, and the final counter
is 2. -/
theorem delegateErrorConsumerRun_counts_witness :
    delegateErrorConsumerRun 0 [⟨false, true, "a"⟩, ⟨true, true, "b"⟩] =
      (2, [(1, ⟨false, true, "a"⟩), (2, ⟨true, true, "b"⟩)]) := by
  rw [delegateErrorConsumerRun_counts]
  decide

end HorizonPkgBuild
